import Mathlib

/-!
Verification of the StockSage decision-and-ledger core against its
natural-language specification.

The development shallowly embeds the relevant Python source files:

* `src/utils/paper_trading_manager.py`  — `PaperTradingManager.place_order`,
  `_update_position`, `update_positions_value` (the Ledger);
* `src/utils/portfolio_manager.py`      — `PortfolioManager.update_position`
  (the simpler Portfolio variant);
* `src/utils/technical_analysis.py`     — `generate_signals` (the SignalEngine).

Modelling conventions:

* Python floats are modelled as exact rationals (`ℚ`); the defensive
  `float(...)` coercions in the source are identity here.
* The SQLAlchemy session holds one account's state; we model it as an
  explicit record `AccountState` (balance, list of positions, order log).
  A query-by-key (`.first()`) becomes lookup of the first matching list
  element; `db.delete` removes that element; adding appends.
* Python exceptions are modelled by `Except`: an `.error` carries the error
  message together with the state as mutated up to the point of the raise,
  so that atomicity (or its absence) is expressible.
* Python float division by zero raises `ZeroDivisionError`; the one place
  the source can divide by zero (`new_cost / new_quantity` in
  `_update_position`) is modelled as an explicit error.
-/

namespace StockSage

/-- `AssetType` enum from `src/models/paper_trading.py`. -/
inductive AssetType where
  | STOCK
  | CRYPTO
  | OPTION
  | FUTURE
deriving DecidableEq, Repr

/-- `OrderType` enum from `src/models/paper_trading.py`. -/
inductive OrderType where
  | MARKET
  | LIMIT
  | STOP
deriving DecidableEq, Repr

/-- `OrderSide` enum from `src/models/paper_trading.py`. -/
inductive OrderSide where
  | BUY
  | SELL
  | SHORT
deriving DecidableEq, Repr

/-- `PaperPosition` model from `src/models/paper_trading.py` (the fields
the core logic reads and writes; options-only columns omitted). -/
structure PaperPosition where
  symbol : String
  asset_type : AssetType
  quantity : ℚ
  average_price : ℚ
  current_price : ℚ
  unrealized_pnl : ℚ
  is_short : Bool
deriving DecidableEq, Repr

/-- `PaperOrder` model from `src/models/paper_trading.py` (fields set by
`place_order`; timestamps and options-only columns omitted). -/
structure PaperOrder where
  symbol : String
  asset_type : AssetType
  order_type : OrderType
  order_side : OrderSide
  quantity : ℚ
  price : ℚ
  status : String
deriving DecidableEq, Repr

/-- One paper-trading account's state: `balance`, its positions (the rows of
`paper_positions` for this account, in insertion order), and the append-only
order log. -/
structure AccountState where
  balance : ℚ
  positions : List PaperPosition
  orders : List PaperOrder
deriving DecidableEq, Repr

/-- The filter predicate of the position query in `_update_position`:
same `(symbol, asset_type)` key. -/
def keyMatches (symbol : String) (asset_type : AssetType)
    (p : PaperPosition) : Bool :=
  p.symbol = symbol ∧ p.asset_type = asset_type

/-- The `self.db.query(PaperPosition).filter(symbol, asset_type).first()`
lookup: first position in the list with the given key. -/
def findPos (positions : List PaperPosition) (symbol : String)
    (asset_type : AssetType) : Option PaperPosition :=
  positions.find? (keyMatches symbol asset_type)

/-- The body of `PaperTradingManager._update_position` acting on the matched
position (lines 86-95 of `paper_trading_manager.py`): BUY re-averages,
SELL decrements and deletes at `quantity ≤ 0` (`none` = deleted), SHORT on an
existing position falls through both branches and changes nothing.
BUY with `new_quantity = 0` is Python's `ZeroDivisionError`. -/
def applyFill (order_side : OrderSide) (quantity price : ℚ)
    (position : PaperPosition) : Except String (Option PaperPosition) :=
  match order_side with
  | .BUY =>
      let new_quantity := position.quantity + quantity
      let new_cost := position.average_price * position.quantity + price * quantity
      if new_quantity = 0 then
        .error "ZeroDivisionError"
      else
        .ok (some { position with
                      average_price := new_cost / new_quantity,
                      quantity := new_quantity })
  | .SELL =>
      let q := position.quantity - quantity
      if q ≤ 0 then .ok none else .ok (some { position with quantity := q })
  | .SHORT => .ok (some position)

/-- The `else` branch of `_update_position` (lines 97-108): brand-new position
created from the fill. -/
def newPosition (symbol : String) (asset_type : AssetType)
    (quantity price : ℚ) (order_side : OrderSide) : PaperPosition :=
  { symbol := symbol
    asset_type := asset_type
    quantity := quantity
    average_price := price
    current_price := price
    unrealized_pnl := 0
    is_short := match order_side with | .SHORT => true | _ => false }

/-- `PaperTradingManager._update_position` (lines 73-110): update the first
position matching `(symbol, asset_type)` via `applyFill`, deleting it when the
fill returns `none`; if no position matches, append a new one. -/
def update_position (positions : List PaperPosition) (symbol : String)
    (quantity price : ℚ) (order_side : OrderSide) (asset_type : AssetType) :
    Except String (List PaperPosition) :=
  match positions with
  | [] => .ok [newPosition symbol asset_type quantity price order_side]
  | p :: rest =>
      if keyMatches symbol asset_type p then
        match applyFill order_side quantity price p with
        | .error e => .error e
        | .ok none => .ok rest
        | .ok (some p') => .ok (p' :: rest)
      else
        match update_position rest symbol quantity price order_side asset_type with
        | .error e => .error e
        | .ok rest' => .ok (p :: rest')

/-- `PaperTradingManager.place_order` (lines 25-71). An `.error` carries the
state as mutated up to the raise: the insufficient-funds check precedes every
mutation, while a `ZeroDivisionError` inside `_update_position` happens after
the balance was already adjusted but before the order row is added. -/
def place_order (st : AccountState) (symbol : String) (order_side : OrderSide)
    (quantity price : ℚ) (asset_type : AssetType := .STOCK)
    (order_type : OrderType := .MARKET) :
    Except (String × AccountState) (AccountState × PaperOrder) :=
  let order_cost := quantity * price
  if (order_side = .BUY ∨ order_side = .SHORT) ∧ order_cost > st.balance then
    .error ("Insufficient funds for order", st)
  else
    let order : PaperOrder :=
      { symbol := symbol
        asset_type := asset_type
        order_type := order_type
        order_side := order_side
        quantity := quantity
        price := price
        status := "filled" }
    let new_balance :=
      if order_side = .BUY then st.balance - order_cost
      else if order_side = .SELL then st.balance + order_cost
      else st.balance
    match update_position st.positions symbol quantity price order_side asset_type with
    | .error e => .error (e, { st with balance := new_balance })
    | .ok positions' =>
        .ok ({ balance := new_balance
               positions := positions'
               orders := st.orders ++ [order] }, order)

/-- C1: an order with side BUY or SHORT whose cost strictly exceeds the balance
fails with the insufficient-funds error, and the error state is exactly the
input state: balance, positions and order log are all unchanged (atomic
all-or-nothing). -/
theorem place_order_insufficient_funds_atomic
    (st : AccountState) (symbol : String) (order_side : OrderSide)
    (quantity price : ℚ) (asset_type : AssetType) (order_type : OrderType)
    (hside : order_side = .BUY ∨ order_side = .SHORT)
    (hcost : quantity * price > st.balance) :
    place_order st symbol order_side quantity price asset_type order_type =
      .error ("Insufficient funds for order", st) := by
  unfold place_order
  simp [hside, hcost]

/-- Witness for C1 at a concrete account and order. -/
theorem place_order_insufficient_funds_atomic_witness :
    place_order ⟨1000, [], []⟩ "AAPL" .BUY 20 100 .STOCK .MARKET =
      .error ("Insufficient funds for order", ⟨1000, [], []⟩) :=
  place_order_insufficient_funds_atomic ⟨1000, [], []⟩ "AAPL" .BUY 20 100
    .STOCK .MARKET (Or.inl rfl) (by norm_num)

/-- `update_position` can only fail with Python's `ZeroDivisionError`. -/
theorem update_position_error_msg (positions : List PaperPosition)
    (symbol : String) (quantity price : ℚ) (order_side : OrderSide)
    (asset_type : AssetType) (e : String)
    (h : update_position positions symbol quantity price order_side asset_type
          = .error e) :
    e = "ZeroDivisionError" := by
  induction positions with
  | nil => simp [update_position] at h
  | cons p rest ih =>
      unfold update_position at h
      by_cases hk : keyMatches symbol asset_type p
      · simp only [hk, if_pos] at h
        cases hfill : applyFill order_side quantity price p with
        | error e' =>
            rw [hfill] at h
            cases h
            unfold applyFill at hfill
            cases order_side <;> simp at hfill
            · split at hfill <;> simp_all
            · split at hfill <;> simp_all
        | ok o => rw [hfill] at h; cases o <;> simp at h
      · simp only [hk, if_neg, if_false] at h
        cases hrec : update_position rest symbol quantity price order_side
            asset_type with
        | error e' => rw [hrec] at h; cases h; exact ih hrec
        | ok rest' => rw [hrec] at h; cases h

/-- C3 counterexample: a BUY order with quantity 0 (non-positive) is not
rejected; it is accepted, fills, changes the positions list and appends a
filled order to the log. -/
theorem place_order_accepts_zero_quantity :
    place_order ⟨100000, [], []⟩ "AAPL" .BUY 0 10 .STOCK .MARKET =
      .ok (⟨100000, [⟨"AAPL", .STOCK, 0, 10, 10, 0, false⟩],
            [⟨"AAPL", .STOCK, .MARKET, .BUY, 0, 10, "filled"⟩]⟩,
           ⟨"AAPL", .STOCK, .MARKET, .BUY, 0, 10, "filled"⟩) := by
  norm_num [place_order, update_position, newPosition]

/-- C3 amended: `place_order` performs no input validation at all. Whatever
the quantity and price (non-positive or negative included), the only errors it
can raise are the insufficient-funds error for BUY/SHORT and the
division-by-zero from a BUY that exactly zeroes an existing position; there is
no `InvalidOrderInput` rejection. -/
theorem place_order_no_input_validation
    (st : AccountState) (symbol : String) (order_side : OrderSide)
    (quantity price : ℚ) (asset_type : AssetType) (order_type : OrderType)
    (e : String) (st' : AccountState)
    (h : place_order st symbol order_side quantity price asset_type order_type
          = .error (e, st')) :
    e = "Insufficient funds for order" ∨ e = "ZeroDivisionError" := by
  by_cases hc : (order_side = OrderSide.BUY ∨ order_side = OrderSide.SHORT) ∧
      quantity * price > st.balance
  · simp only [place_order, if_pos hc, Except.error.injEq, Prod.mk.injEq] at h
    exact Or.inl h.1.symm
  · simp only [place_order, if_neg hc] at h
    cases hup : update_position st.positions symbol quantity price order_side
        asset_type with
    | error e' =>
        rw [hup] at h
        simp only [Except.error.injEq, Prod.mk.injEq] at h
        exact h.1 ▸ Or.inr (update_position_error_msg _ _ _ _ _ _ _ hup)
    | ok ps => rw [hup] at h; simp at h

/-- Witness for the amended C3 at a concrete failing order. -/
theorem place_order_no_input_validation_witness :
    "Insufficient funds for order" = "Insufficient funds for order" ∨
      "Insufficient funds for order" = "ZeroDivisionError" :=
  place_order_no_input_validation ⟨1000, [], []⟩ "AAPL" .BUY 20 100 .STOCK
    .MARKET "Insufficient funds for order" ⟨1000, [], []⟩
    (by norm_num [place_order])

/-- One requested order, as passed to `place_order`. -/
structure OrderReq where
  symbol : String
  order_side : OrderSide
  quantity : ℚ
  price : ℚ
  asset_type : AssetType
  order_type : OrderType
deriving DecidableEq, Repr

/-- Sequential submission of a list of orders through `place_order`,
stopping at the first failure. -/
def runOrders (st : AccountState) : List OrderReq →
    Except (String × AccountState) AccountState
  | [] => .ok st
  | r :: rs =>
      match place_order st r.symbol r.order_side r.quantity r.price
          r.asset_type r.order_type with
      | .error e => .error e
      | .ok res => runOrders res.1 rs

/-- The BUY cost of a requested order (0 for other sides). -/
def buyCost (r : OrderReq) : ℚ :=
  if r.order_side = .BUY then r.quantity * r.price else 0

/-- The SELL proceeds of a requested order (0 for other sides). -/
def sellProceeds (r : OrderReq) : ℚ :=
  if r.order_side = .SELL then r.quantity * r.price else 0

/-- A successful `place_order` moves the balance by exactly
`-quantity*price` on BUY, `+quantity*price` on SELL and `0` on SHORT. -/
theorem place_order_balance_delta
    (st : AccountState) (symbol : String) (order_side : OrderSide)
    (quantity price : ℚ) (asset_type : AssetType) (order_type : OrderType)
    (st' : AccountState) (ord : PaperOrder)
    (h : place_order st symbol order_side quantity price asset_type order_type
          = .ok (st', ord)) :
    st'.balance = st.balance +
      (if order_side = .BUY then -(quantity * price)
       else if order_side = .SELL then quantity * price else 0) := by
  by_cases hc : (order_side = OrderSide.BUY ∨ order_side = OrderSide.SHORT) ∧
      quantity * price > st.balance
  · simp only [place_order, if_pos hc] at h
    simp at h
  · simp only [place_order, if_neg hc] at h
    cases hup : update_position st.positions symbol quantity price order_side
        asset_type with
    | error e' => rw [hup] at h; simp at h
    | ok ps =>
        rw [hup] at h
        simp only [Except.ok.injEq, Prod.mk.injEq] at h
        obtain ⟨h1, -⟩ := h
        subst h1
        cases order_side <;> simp
        ring

/-- Balance after a successful sequence of orders: start minus the BUY
costs plus the SELL proceeds (SHORT orders contribute to neither sum). -/
theorem runOrders_balance (reqs : List OrderReq) (st st' : AccountState)
    (h : runOrders st reqs = .ok st') :
    st'.balance = st.balance - (reqs.map buyCost).sum +
      (reqs.map sellProceeds).sum := by
  induction reqs generalizing st with
  | nil =>
      simp only [runOrders] at h
      cases h
      simp
  | cons r rs ih =>
      unfold runOrders at h
      cases hp : place_order st r.symbol r.order_side r.quantity r.price
          r.asset_type r.order_type with
      | error e => rw [hp] at h; simp at h
      | ok res =>
          rw [hp] at h
          dsimp only at h
          have hb := place_order_balance_delta st r.symbol r.order_side
            r.quantity r.price r.asset_type r.order_type res.1 res.2 (by
              rw [hp])
          have hrec := ih res.1 h
          simp only [List.map_cons, List.sum_cons]
          rw [hrec, hb]
          simp only [buyCost, sellProceeds]
          cases r.order_side <;> simp <;> ring

/-- C5: a successful `place_order` changes the balance by exactly
`-quantity*price` for BUY, `+quantity*price` for SELL and `0` for SHORT, and
for any successful sequence of orders containing no SHORT order,
`balance_after = balance_before - Σ(BUY costs) + Σ(SELL proceeds)` exactly. -/
theorem balance_conservation :
    (∀ (st : AccountState) (symbol : String) (order_side : OrderSide)
        (quantity price : ℚ) (asset_type : AssetType) (order_type : OrderType)
        (st' : AccountState) (ord : PaperOrder),
      place_order st symbol order_side quantity price asset_type order_type
          = .ok (st', ord) →
      st'.balance = st.balance +
        (if order_side = .BUY then -(quantity * price)
         else if order_side = .SELL then quantity * price else 0)) ∧
    (∀ (reqs : List OrderReq) (st st' : AccountState),
      (∀ r ∈ reqs, r.order_side ≠ .SHORT) →
      runOrders st reqs = .ok st' →
      st'.balance = st.balance - (reqs.map buyCost).sum +
        (reqs.map sellProceeds).sum) :=
  ⟨fun st symbol order_side quantity price asset_type order_type st' ord h =>
      place_order_balance_delta st symbol order_side quantity price asset_type
        order_type st' ord h,
   fun reqs st st' _ h => runOrders_balance reqs st st' h⟩

/-- Witness for C5: a concrete BUY (10 @ 100 from 100000) and a concrete
no-SHORT sequence (that BUY then SELL 4 @ 130), with the balances the claim
predicts. -/
theorem balance_conservation_witness :
    (AccountState.balance ⟨99000, [⟨"AAPL", .STOCK, 10, 100, 100, 0, false⟩],
        [⟨"AAPL", .STOCK, .MARKET, .BUY, 10, 100, "filled"⟩]⟩ =
      AccountState.balance ⟨100000, [], []⟩ +
        (if OrderSide.BUY = OrderSide.BUY then -((10 : ℚ) * 100)
         else if OrderSide.BUY = OrderSide.SELL then (10 : ℚ) * 100 else 0)) ∧
    (AccountState.balance ⟨99520, [⟨"AAPL", .STOCK, 6, 100, 100, 0, false⟩],
        [⟨"AAPL", .STOCK, .MARKET, .BUY, 10, 100, "filled"⟩,
         ⟨"AAPL", .STOCK, .MARKET, .SELL, 4, 130, "filled"⟩]⟩ =
      AccountState.balance ⟨100000, [], []⟩ -
        (([⟨"AAPL", .BUY, 10, 100, .STOCK, .MARKET⟩,
           ⟨"AAPL", .SELL, 4, 130, .STOCK, .MARKET⟩] :
          List OrderReq).map buyCost).sum +
        (([⟨"AAPL", .BUY, 10, 100, .STOCK, .MARKET⟩,
           ⟨"AAPL", .SELL, 4, 130, .STOCK, .MARKET⟩] :
          List OrderReq).map sellProceeds).sum) :=
  ⟨balance_conservation.1 ⟨100000, [], []⟩ "AAPL" .BUY 10 100 .STOCK .MARKET
      ⟨99000, [⟨"AAPL", .STOCK, 10, 100, 100, 0, false⟩],
        [⟨"AAPL", .STOCK, .MARKET, .BUY, 10, 100, "filled"⟩]⟩
      ⟨"AAPL", .STOCK, .MARKET, .BUY, 10, 100, "filled"⟩
      (by norm_num [place_order, update_position, newPosition]),
   balance_conservation.2
      [⟨"AAPL", .BUY, 10, 100, .STOCK, .MARKET⟩,
       ⟨"AAPL", .SELL, 4, 130, .STOCK, .MARKET⟩]
      ⟨100000, [], []⟩
      ⟨99520, [⟨"AAPL", .STOCK, 6, 100, 100, 0, false⟩],
        [⟨"AAPL", .STOCK, .MARKET, .BUY, 10, 100, "filled"⟩,
         ⟨"AAPL", .STOCK, .MARKET, .SELL, 4, 130, "filled"⟩]⟩
      (by decide)
      (by
        norm_num [runOrders, place_order, update_position, newPosition,
          applyFill, keyMatches]
        decide)⟩

/-- When no position matches the key, `_update_position` appends a brand-new
position built from the fill. -/
theorem update_position_no_match (positions : List PaperPosition)
    (symbol : String) (quantity price : ℚ) (order_side : OrderSide)
    (asset_type : AssetType)
    (h : findPos positions symbol asset_type = none) :
    update_position positions symbol quantity price order_side asset_type =
      .ok (positions ++ [newPosition symbol asset_type quantity price order_side]) := by
  induction positions with
  | nil => simp [update_position]
  | cons p rest ih =>
      rw [findPos] at h
      by_cases hk : keyMatches symbol asset_type p = true
      · rw [List.find?_cons_of_pos _ hk] at h
        cases h
      · rw [List.find?_cons_of_neg _ (by simp [hk])] at h
        unfold update_position
        rw [if_neg (by simp [hk])]
        rw [ih h]
        simp

/-- The new position built by `_update_position` carries the key it was
created for. -/
theorem keyMatches_newPosition (symbol : String) (asset_type : AssetType)
    (quantity price : ℚ) (order_side : OrderSide) :
    keyMatches symbol asset_type
      (newPosition symbol asset_type quantity price order_side) = true := by
  simp [keyMatches, newPosition]

/-- Appending a matching position to a list with no match makes it the one
found by the key lookup. -/
theorem findPos_append_of_none (positions : List PaperPosition)
    (symbol : String) (asset_type : AssetType) (pnew : PaperPosition)
    (h : findPos positions symbol asset_type = none)
    (hmatch : keyMatches symbol asset_type pnew = true) :
    findPos (positions ++ [pnew]) symbol asset_type = some pnew := by
  induction positions with
  | nil => simp [findPos, List.find?_cons_of_pos _ hmatch]
  | cons p rest ih =>
      rw [findPos] at h
      by_cases hk : keyMatches symbol asset_type p = true
      · rw [List.find?_cons_of_pos _ hk] at h
        cases h
      · rw [List.find?_cons_of_neg _ (by simp [hk])] at h
        rw [findPos, List.cons_append, List.find?_cons_of_neg _ (by simp [hk])]
        exact ih h

/-- A SELL of at least the held quantity deletes the matched position; when
the key occurs at most once, the key lookup afterwards finds nothing. -/
theorem update_position_sell_deletes (positions : List PaperPosition)
    (symbol : String) (asset_type : AssetType) (pos : PaperPosition)
    (qs p : ℚ)
    (hfind : findPos positions symbol asset_type = some pos)
    (hq : pos.quantity ≤ qs)
    (huniq : positions.countP (keyMatches symbol asset_type) ≤ 1) :
    ∃ ps', update_position positions symbol qs p .SELL asset_type = .ok ps' ∧
      findPos ps' symbol asset_type = none := by
  induction positions with
  | nil => cases hfind
  | cons q rest ih =>
      rw [findPos] at hfind
      by_cases hk : keyMatches symbol asset_type q = true
      · rw [List.find?_cons_of_pos _ hk] at hfind
        cases hfind
        refine ⟨rest, ?_, ?_⟩
        · have hfill : applyFill .SELL qs p pos = .ok none := by
            simp only [applyFill]
            rw [if_pos (show pos.quantity - qs ≤ 0 by linarith)]
          unfold update_position
          rw [if_pos hk, hfill]
        · rw [List.countP_cons_of_pos _ _ hk] at huniq
          have hzero : rest.countP (keyMatches symbol asset_type) = 0 := by
            omega
          rw [List.countP_eq_zero] at hzero
          rw [findPos, List.find?_eq_none]
          intro x hx
          simp [hzero x hx]
      · rw [List.find?_cons_of_neg _ (by simp [hk])] at hfind
        rw [List.countP_cons_of_neg _ _ (by simp [hk])] at huniq
        obtain ⟨ps', hup, hnone⟩ := ih hfind huniq
        refine ⟨q :: ps', ?_, ?_⟩
        · unfold update_position
          rw [if_neg hk, hup]
        · rw [findPos, List.find?_cons_of_neg _ (by simp [hk])]
          exact hnone

/-- Destructuring a successful `place_order`: the position update succeeded
and the result state is the balance update, the new positions and the appended
filled order. -/
theorem place_order_ok_dest (st : AccountState) (symbol : String)
    (order_side : OrderSide) (quantity price : ℚ) (asset_type : AssetType)
    (order_type : OrderType) (st' : AccountState) (ord : PaperOrder)
    (h : place_order st symbol order_side quantity price asset_type order_type
          = .ok (st', ord)) :
    ∃ ps', update_position st.positions symbol quantity price order_side
            asset_type = .ok ps' ∧
      st' = ⟨if order_side = .BUY then st.balance - quantity * price
             else if order_side = .SELL then st.balance + quantity * price
             else st.balance, ps',
             st.orders ++ [⟨symbol, asset_type, order_type, order_side,
               quantity, price, "filled"⟩]⟩ ∧
      ord = ⟨symbol, asset_type, order_type, order_side, quantity, price,
             "filled"⟩ := by
  by_cases hc : (order_side = OrderSide.BUY ∨ order_side = OrderSide.SHORT) ∧
      quantity * price > st.balance
  · simp only [place_order, if_pos hc] at h
    simp at h
  · simp only [place_order, if_neg hc] at h
    cases hup : update_position st.positions symbol quantity price order_side
        asset_type with
    | error e' => rw [hup] at h; simp at h
    | ok ps =>
        rw [hup] at h
        simp only [Except.ok.injEq, Prod.mk.injEq] at h
        exact ⟨ps, rfl, h.1.symm, h.2.symm⟩

/-- C6: a SELL of at least the held quantity at a key held (once) in the
account is accepted (no error), deletes the position entirely, and any
subsequent successful BUY at that key creates a fresh long position whose
`average_price` is the new fill price. -/
theorem sell_deletes_position_fresh_buy_restarts
    (st : AccountState) (symbol : String) (asset_type : AssetType)
    (pos : PaperPosition) (qs p : ℚ) (order_type : OrderType)
    (hfind : findPos st.positions symbol asset_type = some pos)
    (hq : qs ≥ pos.quantity)
    (huniq : st.positions.countP (keyMatches symbol asset_type) ≤ 1) :
    ∃ st1 ord1,
      place_order st symbol .SELL qs p asset_type order_type = .ok (st1, ord1) ∧
      findPos st1.positions symbol asset_type = none ∧
      ∀ q2 p2 order_type2 st2 ord2,
        place_order st1 symbol .BUY q2 p2 asset_type order_type2
            = .ok (st2, ord2) →
        findPos st2.positions symbol asset_type =
          some ⟨symbol, asset_type, q2, p2, p2, 0, false⟩ := by
  obtain ⟨ps', hup, hnone⟩ :=
    update_position_sell_deletes st.positions symbol asset_type pos qs p
      hfind hq huniq
  refine ⟨⟨st.balance + qs * p, ps',
      st.orders ++ [⟨symbol, asset_type, order_type, .SELL, qs, p, "filled"⟩]⟩,
    ⟨symbol, asset_type, order_type, .SELL, qs, p, "filled"⟩, ?_, hnone, ?_⟩
  · have hcond : ¬((OrderSide.SELL = OrderSide.BUY ∨
        OrderSide.SELL = OrderSide.SHORT) ∧ qs * p > st.balance) := by simp
    simp only [place_order, if_neg hcond]
    rw [hup]
    simp
  · intro q2 p2 order_type2 st2 ord2 h2
    obtain ⟨ps'', hup2, hst2, -⟩ :=
      place_order_ok_dest _ _ _ _ _ _ _ _ _ h2
    dsimp only at hup2
    rw [update_position_no_match _ _ _ _ _ _ hnone] at hup2
    cases hup2
    rw [hst2]
    exact findPos_append_of_none _ _ _ _ hnone
      (keyMatches_newPosition symbol asset_type q2 p2 .BUY)

/-- Witness for C6: hold 10 AAPL, SELL 25 (more than held), then BUY 5 @ 120
— the oversell is accepted, the position disappears, and the BUY restarts the
average price at 120. -/
theorem sell_deletes_position_fresh_buy_restarts_witness :
    findPos [⟨"AAPL", .STOCK, 10, 100, 100, 0, false⟩] "AAPL" .STOCK =
        some ⟨"AAPL", .STOCK, 10, 100, 100, 0, false⟩ ∧
    (25 : ℚ) ≥ (10 : ℚ) ∧
    ∃ st1 ord1,
      place_order ⟨99000, [⟨"AAPL", .STOCK, 10, 100, 100, 0, false⟩], []⟩
          "AAPL" .SELL 25 130 .STOCK .MARKET = .ok (st1, ord1) ∧
      findPos st1.positions "AAPL" .STOCK = none ∧
      ∀ q2 p2 order_type2 st2 ord2,
        place_order st1 "AAPL" .BUY q2 p2 .STOCK order_type2
            = .ok (st2, ord2) →
        findPos st2.positions "AAPL" .STOCK =
          some ⟨"AAPL", .STOCK, q2, p2, p2, 0, false⟩ :=
  ⟨by rfl, by norm_num,
    sell_deletes_position_fresh_buy_restarts
      ⟨99000, [⟨"AAPL", .STOCK, 10, 100, 100, 0, false⟩], []⟩ "AAPL" .STOCK
      ⟨"AAPL", .STOCK, 10, 100, 100, 0, false⟩ 25 130 .MARKET
      (by rfl) (by norm_num) (by decide)⟩

/-- C10: a SELL at a key with no existing position never fails: it credits
the balance by `quantity * price`, records a filled order, and creates a
brand-new long position (`is_short = false`) of the sold quantity whose
average price is the sale price and whose unrealized P&L is 0. -/
theorem naked_sell_creates_long_position
    (st : AccountState) (symbol : String) (asset_type : AssetType)
    (q p : ℚ) (order_type : OrderType)
    (hfind : findPos st.positions symbol asset_type = none) :
    place_order st symbol .SELL q p asset_type order_type =
      .ok ({ balance := st.balance + q * p,
             positions := st.positions ++ [⟨symbol, asset_type, q, p, p, 0, false⟩],
             orders := st.orders ++
               [⟨symbol, asset_type, order_type, .SELL, q, p, "filled"⟩] },
           ⟨symbol, asset_type, order_type, .SELL, q, p, "filled"⟩) ∧
    findPos (st.positions ++ [⟨symbol, asset_type, q, p, p, 0, false⟩])
        symbol asset_type = some ⟨symbol, asset_type, q, p, p, 0, false⟩ := by
  constructor
  · have hcond : ¬((OrderSide.SELL = OrderSide.BUY ∨
        OrderSide.SELL = OrderSide.SHORT) ∧ q * p > st.balance) := by simp
    simp only [place_order, if_neg hcond]
    rw [update_position_no_match _ _ _ _ _ _ hfind]
    simp [newPosition]
  · exact findPos_append_of_none _ _ _ _ hfind (by simp [keyMatches])

/-- Witness for C10 at a concrete account with no AAPL position. -/
theorem naked_sell_creates_long_position_witness :
    place_order ⟨100000, [], []⟩ "AAPL" .SELL 5 40 .STOCK .MARKET =
      .ok ({ balance := (100000 : ℚ) + 5 * 40,
             positions := [] ++ [⟨"AAPL", .STOCK, 5, 40, 40, 0, false⟩],
             orders := [] ++
               [⟨"AAPL", .STOCK, .MARKET, .SELL, 5, 40, "filled"⟩] },
           ⟨"AAPL", .STOCK, .MARKET, .SELL, 5, 40, "filled"⟩) ∧
    findPos ([] ++ [⟨"AAPL", .STOCK, 5, 40, 40, 0, false⟩]) "AAPL" .STOCK =
      some ⟨"AAPL", .STOCK, 5, 40, 40, 0, false⟩ :=
  naked_sell_creates_long_position ⟨100000, [], []⟩ "AAPL" .STOCK 5 40 .MARKET
    (by rfl)

/-- A sequence of BUY fills `(quantity, price)` on one key, each applied
through `_update_position`, starting from the given positions list. -/
def applyBuys (positions : List PaperPosition) (symbol : String)
    (asset_type : AssetType) : List (ℚ × ℚ) → Except String (List PaperPosition)
  | [] => .ok positions
  | f :: fills =>
      match update_position positions symbol f.1 f.2 .BUY asset_type with
      | .error e => .error e
      | .ok ps' => applyBuys ps' symbol asset_type fills

/-- Folding BUY fills over a single held position accumulates the quantity sum
and the weighted-average price. -/
theorem applyBuys_single (symbol : String) (asset_type : AssetType)
    (fills : List (ℚ × ℚ)) :
    ∀ (Q A c u : ℚ) (s : Bool), 0 < Q → (∀ f ∈ fills, 0 < f.1) →
    applyBuys [⟨symbol, asset_type, Q, A, c, u, s⟩] symbol asset_type fills =
      .ok [⟨symbol, asset_type, Q + (fills.map Prod.fst).sum,
        (A * Q + (fills.map (fun f => f.1 * f.2)).sum) /
          (Q + (fills.map Prod.fst).sum), c, u, s⟩] := by
  induction fills with
  | nil =>
      intro Q A c u s hQ _
      simp only [applyBuys, List.map_nil, List.sum_nil, add_zero]
      rw [mul_div_assoc, div_self (ne_of_gt hQ), mul_one]
  | cons f fills ih =>
      intro Q A c u s hQ hpos
      have hq : 0 < f.1 := hpos f (List.mem_cons_self f fills)
      have hQq : 0 < Q + f.1 := by linarith
      have hfill : applyFill .BUY f.1 f.2 ⟨symbol, asset_type, Q, A, c, u, s⟩ =
          .ok (some ⟨symbol, asset_type, Q + f.1, (A * Q + f.2 * f.1) / (Q + f.1),
            c, u, s⟩) := by
        simp only [applyFill]
        rw [if_neg (by exact ne_of_gt hQq)]
      have hup : update_position [⟨symbol, asset_type, Q, A, c, u, s⟩] symbol
          f.1 f.2 .BUY asset_type =
          .ok [⟨symbol, asset_type, Q + f.1, (A * Q + f.2 * f.1) / (Q + f.1),
            c, u, s⟩] := by
        unfold update_position
        rw [if_pos (by simp [keyMatches]), hfill]
      rw [applyBuys, hup]
      dsimp only
      rw [ih (Q + f.1) ((A * Q + f.2 * f.1) / (Q + f.1)) c u s hQq
        (fun g hg => hpos g (List.mem_cons_of_mem f hg))]
      have hcancel : (A * Q + f.2 * f.1) / (Q + f.1) * (Q + f.1) =
          A * Q + f.2 * f.1 :=
        div_mul_cancel₀ _ (ne_of_gt hQq)
      simp only [List.map_cons, List.sum_cons, Except.ok.injEq,
        List.cons.injEq, PaperPosition.mk.injEq, and_true, true_and]
      constructor
      · ring
      · rw [hcancel, add_assoc, add_assoc, mul_comm f.2 f.1]

/-- The formula part of C2 for a nonempty fill list started from no
position. -/
theorem applyBuys_formula (symbol : String) (asset_type : AssetType)
    (fills : List (ℚ × ℚ)) (hne : fills ≠ [])
    (hpos : ∀ f ∈ fills, 0 < f.1) :
    ∃ pos : PaperPosition,
      applyBuys [] symbol asset_type fills = .ok [pos] ∧
      pos.quantity = (fills.map Prod.fst).sum ∧
      pos.average_price = (fills.map (fun f => f.1 * f.2)).sum /
        (fills.map Prod.fst).sum := by
  cases fills with
  | nil => exact absurd rfl hne
  | cons f fills =>
      have hq : 0 < f.1 := hpos f (List.mem_cons_self f fills)
      have hup : update_position [] symbol f.1 f.2 .BUY asset_type =
          .ok [newPosition symbol asset_type f.1 f.2 .BUY] := by
        simp [update_position]
      rw [applyBuys, hup]
      dsimp only
      have hsingle := applyBuys_single symbol asset_type fills f.1 f.2 f.2 0
        false hq (fun g hg => hpos g (List.mem_cons_of_mem f hg))
      refine ⟨⟨symbol, asset_type, f.1 + (fills.map Prod.fst).sum,
        (f.2 * f.1 + (fills.map (fun g => g.1 * g.2)).sum) /
          (f.1 + (fills.map Prod.fst).sum), f.2, 0, false⟩, ?_, by simp, ?_⟩
      · exact hsingle
      · simp only [List.map_cons, List.sum_cons]
        ring_nf

/-- C2: starting from no position, any nonempty sequence of positive-quantity
BUY fills on one key yields a single position whose quantity is the sum of the
fill quantities and whose `average_price` is the quantity-weighted average
`Σ(qty*price) / Σ(qty)`; any reordering of the fills yields the same quantity
and average price. -/
theorem weighted_average_invariant (symbol : String) (asset_type : AssetType)
    (fills : List (ℚ × ℚ)) (hne : fills ≠ [])
    (hpos : ∀ f ∈ fills, 0 < f.1) :
    ∃ pos : PaperPosition,
      applyBuys [] symbol asset_type fills = .ok [pos] ∧
      pos.quantity = (fills.map Prod.fst).sum ∧
      pos.average_price = (fills.map (fun f => f.1 * f.2)).sum /
        (fills.map Prod.fst).sum ∧
      ∀ fills' : List (ℚ × ℚ), fills'.Perm fills →
        ∃ pos' : PaperPosition,
          applyBuys [] symbol asset_type fills' = .ok [pos'] ∧
          pos'.quantity = pos.quantity ∧
          pos'.average_price = pos.average_price := by
  obtain ⟨pos, hrun, hqty, havg⟩ :=
    applyBuys_formula symbol asset_type fills hne hpos
  refine ⟨pos, hrun, hqty, havg, ?_⟩
  intro fills' hperm
  obtain ⟨pos', hrun', hqty', havg'⟩ :=
    applyBuys_formula symbol asset_type fills'
      (by
        intro hnil
        rw [hnil] at hperm
        exact hne (List.Perm.nil_eq hperm).symm)
      (fun g hg => hpos g (hperm.mem_iff.mp hg))
  have hsumq : (fills'.map Prod.fst).sum = (fills.map Prod.fst).sum :=
    (hperm.map Prod.fst).sum_eq
  have hsumqp : (fills'.map (fun f => f.1 * f.2)).sum =
      (fills.map (fun f => f.1 * f.2)).sum :=
    (hperm.map (fun f => f.1 * f.2)).sum_eq
  exact ⟨pos', hrun', by rw [hqty', hsumq, hqty],
    by rw [havg', hsumq, hsumqp, havg]⟩

/-- Witness for C2: BUY 10 @ 100 then 10 @ 120 from scratch gives quantity 20
at weighted average 110. -/
theorem weighted_average_invariant_witness :
    ([((10 : ℚ), (100 : ℚ)), (10, 120)] : List (ℚ × ℚ)) ≠ [] ∧
    (∀ f ∈ ([((10 : ℚ), (100 : ℚ)), (10, 120)] : List (ℚ × ℚ)), 0 < f.1) ∧
    ∃ pos : PaperPosition,
      applyBuys [] "AAPL" .STOCK [((10 : ℚ), (100 : ℚ)), (10, 120)] =
        .ok [pos] ∧
      pos.quantity = (([((10 : ℚ), (100 : ℚ)), (10, 120)] :
        List (ℚ × ℚ)).map Prod.fst).sum ∧
      pos.average_price = (([((10 : ℚ), (100 : ℚ)), (10, 120)] :
          List (ℚ × ℚ)).map (fun f => f.1 * f.2)).sum /
        (([((10 : ℚ), (100 : ℚ)), (10, 120)] :
          List (ℚ × ℚ)).map Prod.fst).sum ∧
      ∀ fills' : List (ℚ × ℚ),
        fills'.Perm [((10 : ℚ), (100 : ℚ)), (10, 120)] →
        ∃ pos' : PaperPosition,
          applyBuys [] "AAPL" .STOCK fills' = .ok [pos'] ∧
          pos'.quantity = pos.quantity ∧
          pos'.average_price = pos.average_price :=
  ⟨by simp, by norm_num,
    weighted_average_invariant "AAPL" .STOCK [(10, 100), (10, 120)]
      (by simp) (by norm_num)⟩

namespace Portfolio

/-- `Position` model from `src/models/portfolio.py` (the fields
`PortfolioManager.update_position` reads and writes). -/
structure Position where
  shares : ℚ
  average_price : ℚ
deriving DecidableEq, Repr

/-- `PortfolioManager.update_position` (`src/utils/portfolio_manager.py`
lines 52-75): `position.shares += shares_change` happens first, and
`new_total` is then computed from the already-updated share count times the
old average price, plus `shares_change * price`. -/
def update_position (position : Position) (shares_change price : ℚ) :
    Position :=
  let shares := position.shares + shares_change
  let new_total := shares * position.average_price + shares_change * price
  { shares := shares
    average_price := if shares > 0 then new_total / shares else 0 }

end Portfolio

/-- C8 (code bug): the Portfolio variant's `update_position` does not apply
the ledger's weighted-average cost rule. At oldShares = 10, oldAvg = 100,
shares_change = 10, price = 120 the ledger's `_update_position` BUY rule
gives `(100*10 + 120*10) / 20 = 110`, while the portfolio code gives
`((10+10)*100 + 10*120) / 20 = 160`, because it increments `shares` before
building the cost total. -/
theorem portfolio_update_position_not_weighted_average :
    (Portfolio.update_position ⟨10, 100⟩ 10 120).average_price = 160 ∧
    applyFill .BUY 10 120 ⟨"AAPL", .STOCK, 10, 100, 100, 0, false⟩ =
      .ok (some ⟨"AAPL", .STOCK, 20, 110, 100, 0, false⟩) ∧
    ((100 : ℚ) * 10 + 120 * 10) / (10 + 10) = 110 ∧
    (160 : ℚ) ≠ 110 := by
  refine ⟨?_, ?_, by norm_num, by norm_num⟩
  · norm_num [Portfolio.update_position]
  · simp only [applyFill]
    rw [if_neg (by norm_num)]
    norm_num

/-- Mark one stock position to market at the fetched price
(`paper_trading_manager.py` lines 122-126): set `current_price`, recompute
`unrealized_pnl = (current_price - average_price) * quantity`, then negate it
for a short position. -/
def markPos (position : PaperPosition) (current_price : ℚ) : PaperPosition :=
  let pnl := (current_price - position.average_price) * position.quantity
  { position with
      current_price := current_price
      unrealized_pnl := if position.is_short then -pnl else pnl }

/-- `PaperTradingManager.update_positions_value` (lines 116-127), with the
`yf.Ticker(...).history(...)` price fetch abstracted as `quote`. The loop has
no exception handling: a failed quote propagates, carrying the positions as
mutated so far (earlier stock positions updated in memory, the failing one
and everything after it untouched). Positions whose asset type is not STOCK
are skipped entirely. -/
def update_positions_value (quote : String → Except String ℚ) :
    List PaperPosition →
      Except (String × List PaperPosition) (List PaperPosition)
  | [] => .ok []
  | position :: rest =>
      if position.asset_type = .STOCK then
        match quote position.symbol with
        | .error e => .error (e, position :: rest)
        | .ok cp =>
            match update_positions_value quote rest with
            | .error (e, rest') => .error (e, markPos position cp :: rest')
            | .ok rest' => .ok (markPos position cp :: rest')
      else
        match update_positions_value quote rest with
        | .error (e, rest') => .error (e, position :: rest')
        | .ok rest' => .ok (position :: rest')

/-- C4 counterexample: with two STOCK positions and a quote source that fails
for the first symbol but has a price for the second, the whole update aborts:
the second position is NOT updated (its price and P&L stay stale), refuting
"all other positions are still updated" (partial success). -/
theorem update_positions_value_aborts_on_first_failure :
    update_positions_value
      (fun s => if s = "AAPL" then .error "no price data" else .ok 50)
      [⟨"AAPL", .STOCK, 10, 100, 100, 0, false⟩,
       ⟨"MSFT", .STOCK, 10, 40, 40, 0, false⟩] =
    .error ("no price data",
      [⟨"AAPL", .STOCK, 10, 100, 100, 0, false⟩,
       ⟨"MSFT", .STOCK, 10, 40, 40, 0, false⟩]) := by
  rfl

/-- All-success characterization of `update_positions_value`: every STOCK
position is marked to market with the quoted price, non-stock positions are
untouched. -/
theorem update_positions_value_all_ok (q : String → ℚ)
    (quote : String → Except String ℚ) (positions : List PaperPosition)
    (hok : ∀ p ∈ positions, p.asset_type = .STOCK →
      quote p.symbol = .ok (q p.symbol)) :
    update_positions_value quote positions =
      .ok (positions.map (fun p =>
        if p.asset_type = .STOCK then markPos p (q p.symbol) else p)) := by
  induction positions with
  | nil => simp [update_positions_value]
  | cons p rest ih =>
      have hrest := ih (fun x hx => hok x (List.mem_cons_of_mem p hx))
      by_cases hp : p.asset_type = .STOCK
      · unfold update_positions_value
        rw [if_pos hp, hok p (List.mem_cons_self p rest) hp, hrest]
        simp [hp]
      · unfold update_positions_value
        rw [if_neg hp, hrest]
        simp [hp]

/-- C4 amended: for every STOCK position the update sets `current_price` to
the quote and `unrealized_pnl = (current_price - average_price) * quantity`,
sign-flipped for shorts, and skips non-stock positions — but a failing quote
aborts the whole pass with the raw provider error (no `PriceUnavailable`
wrapping): positions before the failing one are updated, while the failing
position and every position after it keep their last known price and P&L.
There is no partial success across the remaining positions. -/
theorem update_positions_value_amended (q : String → ℚ) (e : String)
    (quote : String → Except String ℚ) (pre : List PaperPosition)
    (pf : PaperPosition) (post : List PaperPosition)
    (hpre : ∀ p ∈ pre, p.asset_type = .STOCK →
      quote p.symbol = .ok (q p.symbol))
    (hpf : pf.asset_type = .STOCK)
    (hfail : quote pf.symbol = .error e) :
    update_positions_value quote (pre ++ pf :: post) =
      .error (e, (pre.map (fun p =>
        if p.asset_type = .STOCK then markPos p (q p.symbol) else p)) ++
        pf :: post) := by
  induction pre with
  | nil =>
      simp only [List.nil_append, List.map_nil]
      unfold update_positions_value
      rw [if_pos hpf, hfail]
  | cons p pre ih =>
      have hrec := ih (fun x hx => hpre x (List.mem_cons_of_mem p hx))
      by_cases hp : p.asset_type = .STOCK
      · rw [List.cons_append]
        unfold update_positions_value
        rw [if_pos hp, hpre p (List.mem_cons_self p pre) hp, hrec]
        simp [hp]
      · rw [List.cons_append]
        unfold update_positions_value
        rw [if_neg hp, hrec]
        simp [hp]

/-- Witness for the amended C4: a non-stock position and a good stock quote
before the failing symbol, a stale stock position after it. -/
theorem update_positions_value_amended_witness :
    update_positions_value
      (fun s => if s = "AAPL" then .error "no price data" else .ok 50)
      [⟨"BTC", .CRYPTO, 1, 30000, 30000, 0, false⟩,
       ⟨"MSFT", .STOCK, 10, 40, 40, 0, false⟩,
       ⟨"AAPL", .STOCK, 10, 100, 100, 0, false⟩,
       ⟨"TSLA", .STOCK, 2, 200, 200, 0, false⟩] =
    .error ("no price data",
      ([⟨"BTC", .CRYPTO, 1, 30000, 30000, 0, false⟩,
        ⟨"MSFT", .STOCK, 10, 40, 40, 0, false⟩] :
        List PaperPosition).map (fun p =>
          if p.asset_type = .STOCK then
            markPos p ((fun _ => (50 : ℚ)) p.symbol) else p) ++
      [⟨"AAPL", .STOCK, 10, 100, 100, 0, false⟩,
       ⟨"TSLA", .STOCK, 2, 200, 200, 0, false⟩]) :=
  update_positions_value_amended (fun _ => (50 : ℚ)) "no price data"
    (fun s => if s = "AAPL" then .error "no price data" else .ok 50)
    [⟨"BTC", .CRYPTO, 1, 30000, 30000, 0, false⟩,
     ⟨"MSFT", .STOCK, 10, 40, 40, 0, false⟩]
    ⟨"AAPL", .STOCK, 10, 100, 100, 0, false⟩
    [⟨"TSLA", .STOCK, 2, 200, 200, 0, false⟩]
    (by
      intro p hp hstock
      fin_cases hp <;> simp_all)
    (by rfl) (by rfl)

/-!
SignalEngine: `generate_signals` from `src/utils/technical_analysis.py`.

A pandas DataFrame is modelled as a column-presence record (`Cols`, for the
`'X' in df.columns` guards) plus a chronological list of rows whose cells are
`Option ℚ` (`none` = NaN, e.g. the first rows of a moving average). Every
`.loc` mask in the source is row-wise, reading only the row itself and
`shift(1)` (the previous row, NaN on the first row), so each pass is
translated per row; a comparison involving NaN is false, exactly as in
pandas, which `oLT`/`oLE`/`oGT`/`oGE` encode. The `if '...' in df.columns`
guard of each block is distributed into each of that block's row conditions.
`OBV_EMA` is computed inside the OBV block by an external indicator
collaborator (`EMAIndicator`); its values are part of the row. -/

/-- Which indicator columns the frame has. -/
structure Cols where
  macd : Bool
  macd_signal : Bool
  rsi : Bool
  sma_20 : Bool
  sma_50 : Bool
  bb_high : Bool
  bb_low : Bool
  obv : Bool
deriving DecidableEq, Repr

/-- One row of the indicator table; `none` is a NaN cell. -/
structure Row where
  close : Option ℚ
  macd : Option ℚ
  macd_signal : Option ℚ
  rsi : Option ℚ
  sma_20 : Option ℚ
  sma_50 : Option ℚ
  bb_high : Option ℚ
  bb_low : Option ℚ
  obv : Option ℚ
  obv_ema : Option ℚ
deriving DecidableEq, Repr

/-- Pandas `<` on possibly-NaN cells: false when either side is NaN. -/
def oLT : Option ℚ → Option ℚ → Bool
  | some x, some y => x < y
  | _, _ => false

/-- Pandas `≤` on possibly-NaN cells. -/
def oLE : Option ℚ → Option ℚ → Bool
  | some x, some y => x ≤ y
  | _, _ => false

/-- Pandas `>` on possibly-NaN cells. -/
def oGT : Option ℚ → Option ℚ → Bool
  | some x, some y => x > y
  | _, _ => false

/-- Pandas `≥` on possibly-NaN cells. -/
def oGE : Option ℚ → Option ℚ → Bool
  | some x, some y => x ≥ y
  | _, _ => false

/-- MACD upward cross (line 78): MACD above its signal line now, was at or
below on the previous row. -/
def macdBuyCond (cols : Cols) (prev : Option Row) (r : Row) : Bool :=
  cols.macd && cols.macd_signal && oGT r.macd r.macd_signal &&
    oLE (prev.bind Row.macd) (prev.bind Row.macd_signal)

/-- MACD downward cross (line 79). -/
def macdSellCond (cols : Cols) (prev : Option Row) (r : Row) : Bool :=
  cols.macd && cols.macd_signal && oLT r.macd r.macd_signal &&
    oGE (prev.bind Row.macd) (prev.bind Row.macd_signal)

/-- RSI oversold (line 83): RSI < 30. -/
def rsiBuyCond (cols : Cols) (r : Row) : Bool :=
  cols.rsi && oLT r.rsi (some 30)

/-- RSI overbought (line 84): RSI > 70. -/
def rsiSellCond (cols : Cols) (r : Row) : Bool :=
  cols.rsi && oGT r.rsi (some 70)

/-- Golden cross (line 93): SMA_20 crossed above SMA_50 this row. -/
def maBuyCond (cols : Cols) (prev : Option Row) (r : Row) : Bool :=
  cols.sma_20 && cols.sma_50 && oGT r.sma_20 r.sma_50 &&
    oLE (prev.bind Row.sma_20) (prev.bind Row.sma_50)

/-- Death cross (line 94). -/
def maSellCond (cols : Cols) (prev : Option Row) (r : Row) : Bool :=
  cols.sma_20 && cols.sma_50 && oLT r.sma_20 r.sma_50 &&
    oGE (prev.bind Row.sma_20) (prev.bind Row.sma_50)

/-- Close above the short MA (line 97), inside the SMA block's guard. -/
def closeAboveSma20 (cols : Cols) (r : Row) : Bool :=
  cols.sma_20 && cols.sma_50 && oGT r.close r.sma_20

/-- Close above the long MA (line 98), inside the SMA block's guard. -/
def closeAboveSma50 (cols : Cols) (r : Row) : Bool :=
  cols.sma_20 && cols.sma_50 && oGT r.close r.sma_50

/-- Close at or below the lower Bollinger band (lines 102/106). -/
def bbBuyCond (cols : Cols) (r : Row) : Bool :=
  cols.bb_high && cols.bb_low && oLE r.close r.bb_low

/-- Close at or above the upper Bollinger band (lines 103/107). -/
def bbSellCond (cols : Cols) (r : Row) : Bool :=
  cols.bb_high && cols.bb_low && oGE r.close r.bb_high

/-- OBV crossed above its EMA this row (line 112). -/
def obvUpCond (cols : Cols) (prev : Option Row) (r : Row) : Bool :=
  cols.obv && oGT r.obv r.obv_ema &&
    oLE (prev.bind Row.obv) (prev.bind Row.obv_ema)

/-- OBV crossed below its EMA this row (line 113). -/
def obvDownCond (cols : Cols) (prev : Option Row) (r : Row) : Bool :=
  cols.obv && oLT r.obv r.obv_ema &&
    oGE (prev.bind Row.obv) (prev.bind Row.obv_ema)

/-- One row of `generate_signals` (lines 73-116): the `.loc` assignments of
the five blocks, in source order. `Signal` starts at HOLD and is overwritten
by each firing condition; `Signal_Strength` starts at 0 and accumulates its
additions. -/
def evalRow (cols : Cols) (prev : Option Row) (r : Row) : String × ℚ :=
  let signal := "HOLD"
  let strength : ℚ := 0
  let signal := if macdBuyCond cols prev r then "BUY" else signal
  let signal := if macdSellCond cols prev r then "SELL" else signal
  let signal := if rsiBuyCond cols r then "BUY" else signal
  let signal := if rsiSellCond cols r then "SELL" else signal
  let strength := if rsiBuyCond cols r then strength + 1 else strength
  let strength := if rsiSellCond cols r then strength + 1 else strength
  let signal := if maBuyCond cols prev r then "BUY" else signal
  let signal := if maSellCond cols prev r then "SELL" else signal
  let strength := if closeAboveSma20 cols r then strength + 1/2 else strength
  let strength := if closeAboveSma50 cols r then strength + 1/2 else strength
  let signal := if bbBuyCond cols r then "BUY" else signal
  let signal := if bbSellCond cols r then "SELL" else signal
  let strength := if bbBuyCond cols r then strength + 1 else strength
  let strength := if bbSellCond cols r then strength + 1 else strength
  let strength := if obvUpCond cols prev r then strength + 1/2 else strength
  let strength := if obvDownCond cols prev r then strength - 1/2 else strength
  (signal, strength)

/-- Row-by-row evaluation carrying the previous row for the shifted
comparisons. -/
def signalsGo (cols : Cols) : Option Row → List Row → List (String × ℚ)
  | _, [] => []
  | prev, r :: rs => evalRow cols prev r :: signalsGo cols (some r) rs

/-- `generate_signals`: the per-row `(Signal, Signal_Strength)` columns. -/
def generate_signals (cols : Cols) (rows : List Row) : List (String × ℚ) :=
  signalsGo cols none rows

/-- The claim's reading of the signal column: the rules applied in the fixed
order MACD → RSI → MA cross → Bollinger with last-writer-wins, i.e. the
highest-priority firing rule read backwards. -/
def cascadeSignal (cols : Cols) (prev : Option Row) (r : Row) : String :=
  if bbSellCond cols r then "SELL"
  else if bbBuyCond cols r then "BUY"
  else if maSellCond cols prev r then "SELL"
  else if maBuyCond cols prev r then "BUY"
  else if rsiSellCond cols r then "SELL"
  else if rsiBuyCond cols r then "BUY"
  else if macdSellCond cols prev r then "SELL"
  else if macdBuyCond cols prev r then "BUY"
  else "HOLD"

/-- The claim's reading of the strength column: the plain sum of the
individual additions, +1 per RSI threshold hit, +0.5 per close-above-MA,
+1 per Bollinger touch, ±0.5 per OBV cross. -/
def strengthSum (cols : Cols) (prev : Option Row) (r : Row) : ℚ :=
  (if rsiBuyCond cols r then 1 else 0) +
  (if rsiSellCond cols r then 1 else 0) +
  (if closeAboveSma20 cols r then 1/2 else 0) +
  (if closeAboveSma50 cols r then 1/2 else 0) +
  (if bbBuyCond cols r then 1 else 0) +
  (if bbSellCond cols r then 1 else 0) +
  (if obvUpCond cols prev r then 1/2 else 0) -
  (if obvDownCond cols prev r then 1/2 else 0)

/-- Extracting a conditional addition from an accumulator. -/
theorem ite_add_extract (p : Prop) [Decidable p] (s k : ℚ) :
    (if p then s + k else s) = s + (if p then k else 0) := by
  split_ifs <;> simp

/-- Extracting a conditional subtraction from an accumulator. -/
theorem ite_sub_extract (p : Prop) [Decidable p] (s k : ℚ) :
    (if p then s - k else s) = s - (if p then k else 0) := by
  split_ifs <;> simp

set_option maxHeartbeats 1600000 in
/-- C7: per row, the signal is the last-writer-wins cascade over the fixed
rule order MACD → RSI → MA cross → Bollinger, and the strength is exactly the
running sum of its own additions, independent of which rule last set the
signal. -/
theorem signal_cascade_strength_sum (cols : Cols) (prev : Option Row)
    (r : Row) :
    evalRow cols prev r =
      (cascadeSignal cols prev r, strengthSum cols prev r) := by
  simp only [evalRow, cascadeSignal, strengthSum, Prod.mk.injEq]
  refine ⟨?_, ?_⟩
  · trivial
  · simp only [ite_add_extract, ite_sub_extract, zero_add]

/-- C9: `generate_signals` is deterministic — the same indicator table always
gives the same verdict sequence — and prefix-stable: appending new rows never
changes the verdicts of the original rows. -/
theorem evaluate_deterministic_prefix_stable (cols : Cols)
    (xs ys : List Row) :
    generate_signals cols xs = generate_signals cols xs ∧
    (generate_signals cols (xs ++ ys)).take xs.length =
      generate_signals cols xs := by
  refine ⟨rfl, ?_⟩
  unfold generate_signals
  generalize none = prev
  induction xs generalizing prev with
  | nil => simp [signalsGo]
  | cons r rs ih =>
      rw [List.cons_append, signalsGo, signalsGo, List.length_cons,
        List.take_succ_cons, ih]

end StockSage
